import Mathlib

set_option maxHeartbeats 1000000

/-
A shallow embedding of src/pipelines/ingest_raw.py (the ingestion core of
the event_driven_dwh repository).  The durable store (Postgres) and the
filesystem are external collaborators; the store is modelled from the
spec's store contract (an Events table with a uniqueness key on event_id
and insert-or-ignore-on-conflict, plus an append-only ingestion_runs
table), and the filesystem as a finite map from paths to file contents.
Run ids and clock readings are taken as parameters.
-/

namespace IngestRaw

/-- A JSON value, the result of parsing one line of a batch file.  Numbers
keep the int/float distinction of the source language: `jint` for an
integral literal, `jdec m s` for a decimal literal with mantissa `m` and
scale `s` (the value m / 10^s). -/
inductive JVal where
  | jnull : JVal
  | jbool : Bool → JVal
  | jint : Int → JVal
  | jdec : Int → Nat → JVal
  | jstr : String → JVal
  | jarr : List JVal → JVal
  | jobj : List (String × JVal) → JVal

/-- One physical line of a staged batch file as seen by load_jsonl_file
(lines 65-71): after strip() it is either empty (skipped by the loop), it
fails json.loads or does not yield a usable JSON object (`malformed`,
aborting the attempt), or it parses to a JSON object (`record`). -/
inductive Line where
  | blank : Line
  | malformed : String → Line
  | record : List (String × JVal) → Line

/-- Key lookup in a parsed JSON object (obj.get / obj[...] on a dict).
Objects produced by the JSON parser have unique keys, so taking the first
match is exact. -/
def lookupKey : List (String × JVal) → String → Option JVal
  | [], _ => none
  | (k, v) :: rest, k2 => if k = k2 then some v else lookupKey rest k2

/-- Truthiness of a JSON value in the source language, as used by the
payload-defaulting expression on line 74 of ingest_raw.py. -/
def falsy : JVal → Bool
  | .jnull => true
  | .jbool b => !b
  | .jint n => n == 0
  | .jdec m _ => m == 0
  | .jstr s => s == ""
  | .jarr xs => xs.isEmpty
  | .jobj kvs => kvs.isEmpty

/-- The parameter dict passed to cur.execute for INSERT_SQL after the
normalization on lines 74-80 of ingest_raw.py: payload defaulted to an
empty mapping when absent or falsy (and serialized to a JSON string,
which the jsonb cast parses back, so the value is carried as is), and
product_id, price and device defaulted to None (jnull) when absent. -/
structure Params where
  event_id : JVal
  event_time : JVal
  ingestion_time : JVal
  event_name : JVal
  user_id : JVal
  session_id : JVal
  product_id : JVal
  price : JVal
  device : JVal
  payload : JVal

/-- Parameter binding for INSERT_SQL: the placeholders event_id,
event_time, ingestion_time, event_name, user_id and session_id are read
from the parsed object as is, and the driver refuses the query when one
of them is missing from the dict (checked placeholder by placeholder);
product_id, price and device were normalized on lines 78-80 so they are
always present (None when absent from the input), and payload on lines
74-75. -/
def bindParams (obj : List (String × JVal)) : Except String Params :=
  match lookupKey obj "event_id" with
  | none => .error "query parameter missing: event_id"
  | some eid =>
  match lookupKey obj "event_time" with
  | none => .error "query parameter missing: event_time"
  | some et =>
  match lookupKey obj "ingestion_time" with
  | none => .error "query parameter missing: ingestion_time"
  | some it =>
  match lookupKey obj "event_name" with
  | none => .error "query parameter missing: event_name"
  | some en =>
  match lookupKey obj "user_id" with
  | none => .error "query parameter missing: user_id"
  | some uid =>
  match lookupKey obj "session_id" with
  | none => .error "query parameter missing: session_id"
  | some sid =>
  .ok { event_id := eid, event_time := et, ingestion_time := it,
        event_name := en, user_id := uid, session_id := sid,
        product_id := (lookupKey obj "product_id").getD .jnull,
        price := (lookupKey obj "price").getD .jnull,
        device := (lookupKey obj "device").getD .jnull,
        payload := match lookupKey obj "payload" with
          | some v => if falsy v then .jobj [] else v
          | none => .jobj [] }

/-- Modelled from the spec: the durable store is an external collaborator
(only the SQL text of INSERT_SQL is in src).  A value bound to a uuid,
timestamptz or text column must be SQL NULL or a string; the lexical
grammars of uuid and ISO-8601 are abstracted (every string passes). -/
def castStringy : JVal → Except String (Option String)
  | .jnull => .ok none
  | .jstr s => .ok (some s)
  | _ => .error "invalid cast to a string column"

/-- Modelled from the spec: a bigint placeholder accepts SQL NULL, an
integer, or an integral numeric string (the store's text-to-bigint
cast). -/
def castBigint : JVal → Except String (Option Int)
  | .jnull => .ok none
  | .jint n => .ok (some n)
  | .jstr s =>
    match s.toInt? with
    | some n => .ok (some n)
    | none => .error "invalid input syntax for bigint"
  | _ => .error "invalid cast to bigint"

/-- Modelled from the spec: a numeric placeholder accepts SQL NULL or a
number (int or decimal); the numeric value is kept as given. -/
def castNumeric : JVal → Except String (Option JVal)
  | .jnull => .ok none
  | .jint n => .ok (some (.jint n))
  | .jdec m s => .ok (some (.jdec m s))
  | _ => .error "invalid cast to numeric"

/-- One row of the raw_events table, keyed separately by its event_id. -/
structure Row where
  event_time : Option String
  ingestion_time : Option String
  event_name : Option String
  user_id : Option Int
  session_id : Option String
  product_id : Option Int
  price : Option JVal
  device : Option String
  payload : JVal

/-- Evaluation of INSERT_SQL's VALUES clause on one bound parameter set:
every cast of INSERT_SQL (lines 43-54) is applied.  A NULL event_id is
rejected because the store's dedup uniqueness key on event_id (modelled
from the spec's store contract) cannot key a NULL.  The payload string
was produced by serializing the payload value and the jsonb cast parses
it back, so the stored payload is the value itself. -/
def mkRowEntry (ps : Params) : Except String (String × Row) :=
  match castStringy ps.event_id with
  | .error e => .error e
  | .ok none => .error "null value in event_id violates the key constraint"
  | .ok (some eid) =>
  match castStringy ps.event_time with
  | .error e => .error e
  | .ok et =>
  match castStringy ps.ingestion_time with
  | .error e => .error e
  | .ok it =>
  match castStringy ps.event_name with
  | .error e => .error e
  | .ok en =>
  match castBigint ps.user_id with
  | .error e => .error e
  | .ok uid =>
  match castStringy ps.session_id with
  | .error e => .error e
  | .ok sid =>
  match castBigint ps.product_id with
  | .error e => .error e
  | .ok pid =>
  match castNumeric ps.price with
  | .error e => .error e
  | .ok pr =>
  match castStringy ps.device with
  | .error e => .error e
  | .ok dev =>
  .ok (eid, { event_time := et, ingestion_time := it, event_name := en,
              user_id := uid, session_id := sid, product_id := pid,
              price := pr, device := dev, payload := ps.payload })

/-- One row of the append-only ingestion_runs table (the columns written
by insert_ingestion_run, lines 105-116). -/
structure RunRow where
  run_id : String
  file_name : String
  started_at : String
  finished_at : String
  rows_in_file : Nat
  rows_loaded : Nat
  rows_deduped : Int
  status : String
  error_message : Option String

/-- The durable store: the raw_events table (an association list keyed by
event_id, insertion order preserved) and the append-only ingestion_runs
table. -/
structure Db where
  raw_events : List (String × Row)
  ingestion_runs : List RunRow

/-- Membership of an event_id key in the raw_events table. -/
def hasKey : List (String × Row) → String → Bool
  | [], _ => false
  | (k, _) :: rest, k2 => if k = k2 then true else hasKey rest k2

/-- Execution of INSERT_SQL with ON CONFLICT (event_id) DO NOTHING for
one record: returns the updated table state and cur.rowcount (1 when the
row was inserted, 0 on a conflict with an existing event_id, including a
row inserted earlier in the same transaction). -/
def dbInsertEvent (db : Db) (ps : Params) : Except String (Db × Nat) :=
  match mkRowEntry ps with
  | .error e => .error e
  | .ok (k, r) =>
    if hasKey db.raw_events k then .ok (db, 0)
    else .ok ({ db with raw_events := db.raw_events ++ [(k, r)] }, 1)

/-- FileStats (ingest_raw.py lines 31-35).  rows_deduped is carried as
the integer difference rows_in_file - rows_loaded, exactly as constructed
on line 85. -/
structure FileStats where
  rows_in_file : Nat
  rows_loaded : Nat
  rows_deduped : Int
deriving DecidableEq, Repr

/-- The loop of load_jsonl_file (lines 65-83): skip blank lines, count
each non-blank line, parse it, bind the parameters, execute the insert
and accumulate cur.rowcount; any exception aborts the attempt with the
error.  `n` accumulates rows_in_file and `l` accumulates rows_loaded. -/
def loadGo : Db → List Line → Nat → Nat → Except String (Db × Nat × Nat)
  | db, [], n, l => .ok (db, n, l)
  | db, .blank :: rest, n, l => loadGo db rest n l
  | _, .malformed raw :: _, _, _ => .error ("json.loads failed: " ++ raw)
  | db, .record obj :: rest, n, l =>
    match bindParams obj with
    | .error e => .error e
    | .ok ps =>
      match dbInsertEvent db ps with
      | .error e => .error e
      | .ok (db2, rc) => loadGo db2 rest (n + 1) (l + rc)

/-- load_jsonl_file (lines 59-85): run the loop from zero counters and
package the counts as FileStats(rows_in_file, rows_loaded,
rows_in_file - rows_loaded). -/
def load_jsonl_file (db : Db) (content : List Line) :
    Except String (Db × FileStats) :=
  match loadGo db content 0 0 with
  | .error e => .error e
  | .ok (db2, n, l) => .ok (db2, ⟨n, l, (n : Int) - (l : Int)⟩)

/-- INCOMING_DIR (ingest_raw.py line 15). -/
def INCOMING_DIR : String := "data/incoming"

/-- ARCHIVE_DIR (ingest_raw.py line 16). -/
def ARCHIVE_DIR : String := "data/archive"

/-- A file path split into its directory and its final name component
(Path.name in the source). -/
structure FPath where
  dir : String
  name : String
deriving DecidableEq, Repr

/-- The filesystem: a finite map from paths to batch contents. -/
abbrev Fs := List (FPath × List Line)

/-- Path lookup in the filesystem. -/
def fsLookup : Fs → FPath → Option (List Line)
  | [], _ => none
  | (q, c) :: rest, p => if q = p then some c else fsLookup rest p

/-- Removal of a path from the filesystem. -/
def fsRemove : Fs → FPath → Fs
  | [], _ => []
  | (q, c) :: rest, p =>
    if q = p then fsRemove rest p else (q, c) :: fsRemove rest p

/-- Binding of a path to a content, replacing any previous binding (the
destination of a move is overwritten when it already exists). -/
def fsSet (fs : Fs) (p : FPath) (c : List Line) : Fs :=
  fsRemove fs p ++ [(p, c)]

/-- archive_file (lines 88-92): mkdir with exist_ok is a no-op in the
model; shutil.move relocates the file to ARCHIVE_DIR under its original
name and, when a file of that name already exists at the destination,
silently replaces it (rename semantics of the target platform); it
raises only when the source does not exist.  A directory sitting at the
destination path is not modelled (the archive path is always a file
here). -/
def archive_file (fs : Fs) (p : FPath) : Except String (Fs × FPath) :=
  match fsLookup fs p with
  | none => .error ("No such file: " ++ p.name)
  | some c =>
    .ok (fsSet (fsRemove fs p) ⟨ARCHIVE_DIR, p.name⟩ c, ⟨ARCHIVE_DIR, p.name⟩)

/-- insert_ingestion_run (lines 95-129): append exactly one row to
ingestion_runs with the given counts, status and error message. -/
def insert_ingestion_run (db : Db)
    (run_id file_name started_at finished_at : String)
    (stats : FileStats) (status : String) (error_message : Option String) :
    Db :=
  { db with ingestion_runs := db.ingestion_runs ++
      [{ run_id := run_id, file_name := file_name,
         started_at := started_at, finished_at := finished_at,
         rows_in_file := stats.rows_in_file,
         rows_loaded := stats.rows_loaded,
         rows_deduped := stats.rows_deduped,
         status := status, error_message := error_message }] }

/-- The whole mutable world the pipeline touches: the durable store and
the staging filesystem. -/
structure SysState where
  db : Db
  fs : Fs

/-- Lines 137-143 of ingest_one_file: the work done inside the connection
block — load the file, insert the success run row, commit.  The returned
Db is the committed state; on an error the transaction is rolled back by
the connection context manager, so none of it becomes visible (the
caller keeps its previous Db). -/
def runBatch (db : Db) (content : List Line)
    (run_id started_at finished_at file_name : String) :
    Except String (Db × FileStats) :=
  match load_jsonl_file db content with
  | .error e => .error e
  | .ok (db1, stats) =>
    .ok (insert_ingestion_run db1 run_id file_name started_at finished_at
           stats "success" none, stats)

/-- ingest_one_file (lines 132-152).  run_id and the two clock readings
are taken as arguments (the source draws them from uuid4 and the clock).
On any exception the function re-raises a RuntimeError wrapping the
message (lines 150-152) and no failed run row is written; the archive
move happens only after the commit inside runBatch, and an archive
failure after the commit keeps the committed store state. -/
def ingest_one_file (st : SysState) (p : FPath)
    (run_id started_at finished_at : String) :
    SysState × Except String FileStats :=
  match fsLookup st.fs p with
  | none => (st, .error ("Failed to ingest " ++ p.name ++ ": no such file"))
  | some content =>
    match runBatch st.db content run_id started_at finished_at p.name with
    | .error e => (st, .error ("Failed to ingest " ++ p.name ++ ": " ++ e))
    | .ok (db2, stats) =>
      match archive_file st.fs p with
      | .error e =>
        ({ st with db := db2 },
         .error ("Failed to ingest " ++ p.name ++ ": " ++ e))
      | .ok (fs2, _) => (⟨db2, fs2⟩, .ok stats)

/-- Suffix test on file names (the *.jsonl part of the glob), computed
structurally over the characters. -/
def nameHasSuffix (suf name : String) : Bool :=
  List.isSuffixOf suf.data name.data

/-- The glob INCOMING_DIR/*.jsonl of main (line 157). -/
def jsonlFiles (fs : Fs) : List FPath :=
  (fs.map Prod.fst).filter
    (fun p => p.dir == INCOMING_DIR && nameHasSuffix ".jsonl" p.name)

/-- Code-point lexicographic comparison of file names (the order of
sorted() on path strings), computed structurally over the characters. -/
def charListLtb : List Char → List Char → Bool
  | _, [] => false
  | [], _ :: _ => true
  | c1 :: r1, c2 :: r2 =>
    if c1.toNat < c2.toNat then true
    else if c2.toNat < c1.toNat then false
    else charListLtb r1 r2

/-- Insertion into a list of paths sorted by name. -/
def insertByName (p : FPath) : List FPath → List FPath
  | [] => [p]
  | q :: rest =>
    if charListLtb p.name.data q.name.data then p :: q :: rest
    else q :: insertByName p rest

/-- Name-wise sorting of the discovered paths (sorted(...) on line 157). -/
def sortByName : List FPath → List FPath
  | [] => []
  | p :: rest => insertByName p (sortByName rest)

/-- The for loop of main (lines 162-163): ingest each discovered file in
turn.  The RuntimeError raised by ingest_one_file is not caught, so a
failing batch stops the loop and the remaining files are not attempted.
`mkMeta` supplies each file's run_id and clock readings. -/
def processFiles (mkMeta : FPath → String × String × String) :
    SysState → List FPath → SysState × Except String Unit
  | st, [] => (st, .ok ())
  | st, p :: rest =>
    match ingest_one_file st p (mkMeta p).1 (mkMeta p).2.1 (mkMeta p).2.2 with
    | (st2, .error e) => (st2, .error e)
    | (st2, .ok _) => processFiles mkMeta st2 rest

/-- main (lines 155-163): discover the *.jsonl files under data/incoming
in name order and ingest each in turn; DSN handling and printing are out
of the model.  An empty discovery returns immediately, which coincides
with the loop on an empty list. -/
def main (st : SysState) (mkMeta : FPath → String × String × String) :
    SysState × Except String Unit :=
  processFiles mkMeta st (sortByName (jsonlFiles st.fs))

/-- Number of non-blank lines of a batch: exactly the lines that the
loop counts into rows_in_file. -/
def countNonBlank : List Line → Nat
  | [] => 0
  | .blank :: rest => countNonBlank rest
  | .malformed _ :: rest => countNonBlank rest + 1
  | .record _ :: rest => countNonBlank rest + 1

/-- A line that a re-run over the table `tbl` handles without inserting
anything: blank, or a record that binds and casts successfully and whose
event_id is already present in `tbl`. -/
def lineReady (tbl : List (String × Row)) : Line → Prop
  | .blank => True
  | .malformed _ => False
  | .record obj =>
    ∃ ps k r, bindParams obj = .ok ps ∧ mkRowEntry ps = .ok (k, r) ∧
      hasKey tbl k = true

theorem hasKey_append (xs : List (String × Row)) (k k2 : String) (r : Row) :
    hasKey (xs ++ [(k, r)]) k2 = true ↔ (hasKey xs k2 = true ∨ k = k2) := by
  induction xs with
  | nil => by_cases h : k = k2 <;> simp [hasKey, h]
  | cons hd tl ih =>
    obtain ⟨q, c⟩ := hd
    by_cases h : q = k2 <;> simp [hasKey, h, ih]

theorem dbInsertEvent_runs (db : Db) (ps : Params) (db2 : Db) (rc : Nat)
    (h : dbInsertEvent db ps = .ok (db2, rc)) :
    db2.ingestion_runs = db.ingestion_runs := by
  unfold dbInsertEvent at h
  cases hm : mkRowEntry ps with
  | error e => rw [hm] at h; simp at h
  | ok kr =>
    obtain ⟨k, r⟩ := kr
    rw [hm] at h
    by_cases hk : hasKey db.raw_events k = true <;>
      simp [hk] at h <;> rw [← h.1]

theorem dbInsertEvent_mono (db : Db) (ps : Params) (db2 : Db) (rc : Nat)
    (k2 : String) (h : dbInsertEvent db ps = .ok (db2, rc))
    (hk2 : hasKey db.raw_events k2 = true) :
    hasKey db2.raw_events k2 = true := by
  unfold dbInsertEvent at h
  cases hm : mkRowEntry ps with
  | error e => rw [hm] at h; simp at h
  | ok kr =>
    obtain ⟨k, r⟩ := kr
    rw [hm] at h
    by_cases hk : hasKey db.raw_events k = true <;> simp [hk] at h
    · rw [← h.1]; exact hk2
    · rw [← h.1]
      exact (hasKey_append db.raw_events k k2 r).mpr (Or.inl hk2)

theorem dbInsertEvent_key (db : Db) (ps : Params) (db2 : Db) (rc : Nat)
    (h : dbInsertEvent db ps = .ok (db2, rc)) :
    ∃ k r, mkRowEntry ps = .ok (k, r) ∧ hasKey db2.raw_events k = true := by
  unfold dbInsertEvent at h
  cases hm : mkRowEntry ps with
  | error e => rw [hm] at h; simp at h
  | ok kr =>
    obtain ⟨k, r⟩ := kr
    rw [hm] at h
    refine ⟨k, r, rfl, ?_⟩
    by_cases hk : hasKey db.raw_events k = true <;> simp [hk] at h
    · rw [← h.1]; exact hk
    · rw [← h.1]
      exact (hasKey_append db.raw_events k k r).mpr (Or.inr rfl)

theorem dbInsertEvent_rc_le (db : Db) (ps : Params) (db2 : Db) (rc : Nat)
    (h : dbInsertEvent db ps = .ok (db2, rc)) : rc ≤ 1 := by
  unfold dbInsertEvent at h
  cases hm : mkRowEntry ps with
  | error e => rw [hm] at h; simp at h
  | ok kr =>
    obtain ⟨k, r⟩ := kr
    rw [hm] at h
    by_cases hk : hasKey db.raw_events k = true <;> simp [hk] at h <;> omega

theorem loadGo_runs : ∀ (lines : List Line) (db db2 : Db) (n l n2 l2 : Nat),
    loadGo db lines n l = .ok (db2, n2, l2) →
    db2.ingestion_runs = db.ingestion_runs := by
  intro lines
  induction lines with
  | nil =>
    intro db db2 n l n2 l2 h
    simp only [loadGo, Except.ok.injEq, Prod.mk.injEq] at h
    rw [← h.1]
  | cons hd tl ih =>
    intro db db2 n l n2 l2 h
    cases hd with
    | blank => simp only [loadGo] at h; exact ih db db2 n l n2 l2 h
    | malformed raw => simp [loadGo] at h
    | record obj =>
      simp only [loadGo] at h
      cases hb : bindParams obj with
      | error e => simp [hb] at h
      | ok ps =>
        simp only [hb] at h
        cases hi : dbInsertEvent db ps with
        | error e => simp [hi] at h
        | ok pair =>
          obtain ⟨db1, rc⟩ := pair
          simp only [hi] at h
          rw [ih db1 db2 (n + 1) (l + rc) n2 l2 h]
          exact dbInsertEvent_runs db ps db1 rc hi

theorem loadGo_mono : ∀ (lines : List Line) (db db2 : Db) (n l n2 l2 : Nat)
    (k : String), loadGo db lines n l = .ok (db2, n2, l2) →
    hasKey db.raw_events k = true → hasKey db2.raw_events k = true := by
  intro lines
  induction lines with
  | nil =>
    intro db db2 n l n2 l2 k h hk
    simp only [loadGo, Except.ok.injEq, Prod.mk.injEq] at h
    rw [← h.1]; exact hk
  | cons hd tl ih =>
    intro db db2 n l n2 l2 k h hk
    cases hd with
    | blank => simp only [loadGo] at h; exact ih db db2 n l n2 l2 k h hk
    | malformed raw => simp [loadGo] at h
    | record obj =>
      simp only [loadGo] at h
      cases hb : bindParams obj with
      | error e => simp [hb] at h
      | ok ps =>
        simp only [hb] at h
        cases hi : dbInsertEvent db ps with
        | error e => simp [hi] at h
        | ok pair =>
          obtain ⟨db1, rc⟩ := pair
          simp only [hi] at h
          exact ih db1 db2 (n + 1) (l + rc) n2 l2 k h
            (dbInsertEvent_mono db ps db1 rc k hi hk)

theorem loadGo_count : ∀ (lines : List Line) (db db2 : Db) (n l n2 l2 : Nat),
    loadGo db lines n l = .ok (db2, n2, l2) →
    n2 = n + countNonBlank lines := by
  intro lines
  induction lines with
  | nil =>
    intro db db2 n l n2 l2 h
    simp only [loadGo, Except.ok.injEq, Prod.mk.injEq] at h
    simp [countNonBlank, ← h.2.1]
  | cons hd tl ih =>
    intro db db2 n l n2 l2 h
    cases hd with
    | blank =>
      simp only [loadGo] at h
      simpa [countNonBlank] using ih db db2 n l n2 l2 h
    | malformed raw => simp [loadGo] at h
    | record obj =>
      simp only [loadGo] at h
      cases hb : bindParams obj with
      | error e => simp [hb] at h
      | ok ps =>
        simp only [hb] at h
        cases hi : dbInsertEvent db ps with
        | error e => simp [hi] at h
        | ok pair =>
          obtain ⟨db1, rc⟩ := pair
          simp only [hi] at h
          have := ih db1 db2 (n + 1) (l + rc) n2 l2 h
          simp [countNonBlank]
          omega

theorem loadGo_le : ∀ (lines : List Line) (db db2 : Db) (n l n2 l2 : Nat),
    loadGo db lines n l = .ok (db2, n2, l2) → l ≤ n → l2 ≤ n2 := by
  intro lines
  induction lines with
  | nil =>
    intro db db2 n l n2 l2 h hle
    simp only [loadGo, Except.ok.injEq, Prod.mk.injEq] at h
    omega
  | cons hd tl ih =>
    intro db db2 n l n2 l2 h hle
    cases hd with
    | blank => simp only [loadGo] at h; exact ih db db2 n l n2 l2 h hle
    | malformed raw => simp [loadGo] at h
    | record obj =>
      simp only [loadGo] at h
      cases hb : bindParams obj with
      | error e => simp [hb] at h
      | ok ps =>
        simp only [hb] at h
        cases hi : dbInsertEvent db ps with
        | error e => simp [hi] at h
        | ok pair =>
          obtain ⟨db1, rc⟩ := pair
          simp only [hi] at h
          have hrc := dbInsertEvent_rc_le db ps db1 rc hi
          exact ih db1 db2 (n + 1) (l + rc) n2 l2 h (by omega)

theorem loadGo_ready : ∀ (lines : List Line) (db db2 : Db) (n l n2 l2 : Nat),
    loadGo db lines n l = .ok (db2, n2, l2) →
    ∀ ln ∈ lines, lineReady db2.raw_events ln := by
  intro lines
  induction lines with
  | nil => intro db db2 n l n2 l2 _ ln hln; cases hln
  | cons hd tl ih =>
    intro db db2 n l n2 l2 h ln hln
    cases hd with
    | blank =>
      simp only [loadGo] at h
      cases hln with
      | head => exact trivial
      | tail _ hmem => exact ih db db2 n l n2 l2 h ln hmem
    | malformed raw => simp [loadGo] at h
    | record obj =>
      simp only [loadGo] at h
      cases hb : bindParams obj with
      | error e => simp [hb] at h
      | ok ps =>
        simp only [hb] at h
        cases hi : dbInsertEvent db ps with
        | error e => simp [hi] at h
        | ok pair =>
          obtain ⟨db1, rc⟩ := pair
          simp only [hi] at h
          cases hln with
          | head =>
            obtain ⟨k, r, hm, hk⟩ := dbInsertEvent_key db ps db1 rc hi
            exact ⟨ps, k, r, hb, hm,
              loadGo_mono tl db1 db2 (n + 1) (l + rc) n2 l2 k h hk⟩
          | tail _ hmem => exact ih db1 db2 (n + 1) (l + rc) n2 l2 h ln hmem

theorem loadGo_rerun : ∀ (lines : List Line) (db : Db) (n l : Nat),
    (∀ ln ∈ lines, lineReady db.raw_events ln) →
    loadGo db lines n l = .ok (db, n + countNonBlank lines, l) := by
  intro lines
  induction lines with
  | nil => intro db n l _; simp [loadGo, countNonBlank]
  | cons hd tl ih =>
    intro db n l hready
    cases hd with
    | blank =>
      simp only [loadGo, countNonBlank]
      exact ih db n l (fun ln hln => hready ln (List.mem_cons_of_mem _ hln))
    | malformed raw => exact (hready _ (List.mem_cons_self _ _)).elim
    | record obj =>
      obtain ⟨ps, k, r, hb, hm, hk⟩ := hready _ (List.mem_cons_self _ _)
      have hins : dbInsertEvent db ps = .ok (db, 0) := by
        unfold dbInsertEvent; rw [hm]; simp [hk]
      have hrec := ih db (n + 1) l
        (fun ln hln => hready ln (List.mem_cons_of_mem _ hln))
      have harith : n + 1 + countNonBlank tl = n + countNonBlank (Line.record obj :: tl) := by
        simp only [countNonBlank]; omega
      simp only [loadGo, hb, hins, Nat.add_zero]
      rw [hrec, harith]

theorem loadGo_malformed : ∀ (lines : List Line) (db : Db) (n l : Nat)
    (raw : String), Line.malformed raw ∈ lines →
    ∃ e, loadGo db lines n l = .error e := by
  intro lines
  induction lines with
  | nil => intro db n l raw hmem; cases hmem
  | cons hd tl ih =>
    intro db n l raw hmem
    cases hd with
    | blank =>
      simp only [loadGo]
      cases hmem with
      | tail _ hm => exact ih db n l raw hm
    | malformed raw2 => exact ⟨_, rfl⟩
    | record obj =>
      have hm : Line.malformed raw ∈ tl := by
        cases hmem with
        | tail _ h => exact h
      cases hb : bindParams obj with
      | error e => exact ⟨e, by simp only [loadGo, hb]⟩
      | ok ps =>
        cases hi : dbInsertEvent db ps with
        | error e => exact ⟨e, by simp only [loadGo, hb, hi]⟩
        | ok pair =>
          obtain ⟨db1, rc⟩ := pair
          obtain ⟨e, he⟩ := ih db1 (n + 1) (l + rc) raw hm
          refine ⟨e, ?_⟩
          simp only [loadGo, hb, hi]
          exact he

theorem loadGo_all_blank : ∀ (lines : List Line) (db : Db) (n l : Nat),
    (∀ ln ∈ lines, ln = Line.blank) →
    loadGo db lines n l = .ok (db, n, l) := by
  intro lines
  induction lines with
  | nil => intro db n l _; simp [loadGo]
  | cons hd tl ih =>
    intro db n l hall
    have hhd := hall hd (List.mem_cons_self _ _)
    subst hhd
    simp only [loadGo]
    exact ih db n l (fun ln hln => hall ln (List.mem_cons_of_mem _ hln))

theorem fsLookup_append_of_none (xs ys : Fs) (p : FPath)
    (h : fsLookup xs p = none) : fsLookup (xs ++ ys) p = fsLookup ys p := by
  induction xs with
  | nil => rfl
  | cons hd tl ih =>
    obtain ⟨q, c⟩ := hd
    by_cases hq : q = p
    · simp [fsLookup, hq] at h
    · simp only [fsLookup, List.cons_append, if_neg hq] at h ⊢
      exact ih h

theorem fsLookup_remove_self (fs : Fs) (p : FPath) :
    fsLookup (fsRemove fs p) p = none := by
  induction fs with
  | nil => rfl
  | cons hd tl ih =>
    obtain ⟨q, c⟩ := hd
    by_cases hq : q = p
    · simp only [fsRemove, if_pos hq]; exact ih
    · simp only [fsRemove, if_neg hq, fsLookup, if_neg hq]; exact ih

theorem fsLookup_set_self (fs : Fs) (p : FPath) (c : List Line) :
    fsLookup (fsSet fs p c) p = some c := by
  unfold fsSet
  rw [fsLookup_append_of_none _ _ _ (fsLookup_remove_self fs p)]
  simp [fsLookup]

theorem fsLookup_set_other (fs : Fs) (p q : FPath) (c : List Line)
    (h : q ≠ p) : fsLookup (fsSet fs p c) q = fsLookup (fsRemove fs p) q := by
  unfold fsSet
  induction fsRemove fs p with
  | nil =>
    have hne : ¬p = q := fun hh => h hh.symm
    simp [fsLookup, hne]
  | cons hd tl ih =>
    obtain ⟨q2, c2⟩ := hd
    by_cases hq : q2 = q <;> simp only [fsLookup, List.cons_append, if_pos, if_neg, hq] <;> simp [hq, ih]

theorem fsLookup_remove_other (fs : Fs) (p q : FPath) (h : q ≠ p) :
    fsLookup (fsRemove fs q) p = fsLookup fs p := by
  induction fs with
  | nil => rfl
  | cons hd tl ih =>
    obtain ⟨q2, c2⟩ := hd
    by_cases hq : q2 = q
    · subst hq
      have hnp : ¬q2 = p := h
      simp only [fsRemove, if_pos rfl, fsLookup, if_neg hnp]
      exact ih
    · by_cases hp : q2 = p
      · simp only [fsRemove, if_neg hq, fsLookup, if_pos hp]
      · simp only [fsRemove, if_neg hq, fsLookup, if_neg hp]
        exact ih

/-- A valid record with event_id A, the first-seen instance (its payload
marks session_step 1). -/
def objA1 : List (String × JVal) :=
  [("event_id", .jstr "A"),
   ("event_time", .jstr "2026-01-01T00:00:00+00:00"),
   ("ingestion_time", .jstr "2026-01-01T00:00:05+00:00"),
   ("event_name", .jstr "open"),
   ("user_id", .jint 1),
   ("session_id", .jstr "S1"),
   ("device", .jstr "web"),
   ("payload", .jobj [("session_step", .jint 1)])]

/-- A valid record with event_id B and a product_id. -/
def objB : List (String × JVal) :=
  [("event_id", .jstr "B"),
   ("event_time", .jstr "2026-01-01T00:00:02+00:00"),
   ("ingestion_time", .jstr "2026-01-01T00:00:05+00:00"),
   ("event_name", .jstr "view"),
   ("user_id", .jint 1),
   ("session_id", .jstr "S1"),
   ("product_id", .jint 42),
   ("device", .jstr "web"),
   ("payload", .jobj [("session_step", .jint 2)])]

/-- A duplicate of A with a different payload (session_step 3), to make
first-seen-wins observable. -/
def objA2 : List (String × JVal) :=
  [("event_id", .jstr "A"),
   ("event_time", .jstr "2026-01-01T00:00:03+00:00"),
   ("ingestion_time", .jstr "2026-01-01T00:00:05+00:00"),
   ("event_name", .jstr "open"),
   ("user_id", .jint 1),
   ("session_id", .jstr "S1"),
   ("device", .jstr "web"),
   ("payload", .jobj [("session_step", .jint 3)])]

/-- The stored row produced by objA1. -/
def rowA1 : Row :=
  { event_time := some "2026-01-01T00:00:00+00:00",
    ingestion_time := some "2026-01-01T00:00:05+00:00",
    event_name := some "open", user_id := some 1,
    session_id := some "S1", product_id := none, price := none,
    device := some "web", payload := .jobj [("session_step", .jint 1)] }

/-- The stored row produced by objB. -/
def rowB : Row :=
  { event_time := some "2026-01-01T00:00:02+00:00",
    ingestion_time := some "2026-01-01T00:00:05+00:00",
    event_name := some "view", user_id := some 1,
    session_id := some "S1", product_id := some 42, price := none,
    device := some "web", payload := .jobj [("session_step", .jint 2)] }

/-- The A,B,A scenario batch. -/
def contentABA : List Line := [.record objA1, .record objB, .record objA2]

/-- The store after loading contentABA into an empty store. -/
def dbABA : Db := ⟨[("A", rowA1), ("B", rowB)], []⟩

/-- The staged world for the A,B,A scenario. -/
def stA : SysState :=
  ⟨⟨[], []⟩, [(⟨INCOMING_DIR, "events.jsonl"⟩, contentABA)]⟩

/-- The counts of the A,B,A scenario. -/
def stats321 : FileStats := ⟨3, 2, 1⟩

/-- C3: for every run produced by loading a batch, the counts satisfy
rows_in_file = rows_loaded + rows_deduped, rows_deduped is non-negative
and rows_loaded never exceeds rows_in_file (rows_in_file and rows_loaded
are counts, hence non-negative by type). -/
theorem run_counts_exact_partition (db db2 : Db) (content : List Line)
    (stats : FileStats)
    (h : load_jsonl_file db content = .ok (db2, stats)) :
    (stats.rows_in_file : Int) = (stats.rows_loaded : Int) + stats.rows_deduped ∧
    0 ≤ stats.rows_deduped ∧
    stats.rows_loaded ≤ stats.rows_in_file := by
  unfold load_jsonl_file at h
  cases hg : loadGo db content 0 0 with
  | error e => simp [hg] at h
  | ok t =>
    obtain ⟨db1, n, l⟩ := t
    simp only [hg, Except.ok.injEq, Prod.mk.injEq] at h
    have hle := loadGo_le content db db1 0 0 n l hg (le_refl 0)
    rw [← h.2]
    refine ⟨?_, ?_, ?_⟩ <;> simp <;> omega

/-- Witness for C3 at the concrete A,B,A batch. -/
theorem run_counts_exact_partition_witness :
    load_jsonl_file ⟨[], []⟩ contentABA = .ok (dbABA, stats321) ∧
    ((stats321.rows_in_file : Int) =
        (stats321.rows_loaded : Int) + stats321.rows_deduped ∧
      0 ≤ stats321.rows_deduped ∧
      stats321.rows_loaded ≤ stats321.rows_in_file) :=
  ⟨rfl, run_counts_exact_partition ⟨[], []⟩ dbABA contentABA stats321 rfl⟩

/-- C2: loading is idempotent keyed by event_id: reloading a batch that
was just fully loaded returns rows_loaded = 0 and the literally
identical store (the set of distinct Events unchanged and every existing
row's field values untouched), with the same rows_in_file and everything
counted as deduped. -/
theorem load_idempotent_by_event_id (db db1 : Db) (content : List Line)
    (stats : FileStats)
    (h : load_jsonl_file db content = .ok (db1, stats)) :
    load_jsonl_file db1 content =
      .ok (db1, ⟨stats.rows_in_file, 0, (stats.rows_in_file : Int)⟩) := by
  unfold load_jsonl_file at h ⊢
  cases hg : loadGo db content 0 0 with
  | error e => simp [hg] at h
  | ok t =>
    obtain ⟨dbx, n, l⟩ := t
    simp only [hg, Except.ok.injEq, Prod.mk.injEq] at h
    obtain ⟨hdb, hst⟩ := h
    subst hdb
    have hrr := loadGo_rerun content dbx 0 0
      (loadGo_ready content db dbx 0 0 n l hg)
    have hcnt := loadGo_count content db dbx 0 0 n l hg
    rw [hrr, ← hst]
    simp
    omega

/-- Witness for C2 at the concrete A,B,A batch. -/
theorem load_idempotent_by_event_id_witness :
    load_jsonl_file ⟨[], []⟩ contentABA = .ok (dbABA, stats321) ∧
    load_jsonl_file dbABA contentABA = .ok (dbABA, ⟨3, 0, 3⟩) :=
  ⟨rfl, load_idempotent_by_event_id ⟨[], []⟩ dbABA contentABA stats321 rfl⟩

/-- C8: the scenario batch with event ids A,B,A (all records valid)
ingested into an empty store: the run reports rows_in_file = 3,
rows_loaded = 2, rows_deduped = 1 with status success, the batch is
relocated to the archive, and storage retains exactly B plus the
first-seen instance of A (the one with session_step 1), deterministically. -/
theorem duplicate_ids_scenario :
    ingest_one_file stA ⟨INCOMING_DIR, "events.jsonl"⟩ "r1" "t0" "t1" =
      (⟨⟨[("A", rowA1), ("B", rowB)],
         [⟨"r1", "events.jsonl", "t0", "t1", 3, 2, 1, "success", none⟩]⟩,
        [(⟨ARCHIVE_DIR, "events.jsonl"⟩, contentABA)]⟩,
       .ok stats321) := rfl

/-- C9: blank lines are skipped by the loop and contribute nothing to
rows_in_file; a batch whose lines are all blank is valid: the attempt
succeeds with counts 0/0/0, appends one success run row, and archives
the batch out of the staging directory. -/
theorem blank_lines_skipped_and_empty_batch_succeeds
    (st : SysState) (p : FPath) (content : List Line) (rid sa fa : String)
    (hdir : p.dir = INCOMING_DIR)
    (hfile : fsLookup st.fs p = some content)
    (hblank : ∀ ln ∈ content, ln = Line.blank) :
    (∀ (db : Db) (rest : List Line) (n l : Nat),
      loadGo db (Line.blank :: rest) n l = loadGo db rest n l) ∧
    ∃ st2, ingest_one_file st p rid sa fa = (st2, .ok ⟨0, 0, 0⟩) ∧
      st2.db.raw_events = st.db.raw_events ∧
      st2.db.ingestion_runs = st.db.ingestion_runs ++
        [⟨rid, p.name, sa, fa, 0, 0, 0, "success", none⟩] ∧
      fsLookup st2.fs ⟨ARCHIVE_DIR, p.name⟩ = some content ∧
      fsLookup st2.fs p = none := by
  have hne : p ≠ (⟨ARCHIVE_DIR, p.name⟩ : FPath) := by
    intro hcontra
    have : p.dir = ARCHIVE_DIR := by rw [hcontra]
    rw [hdir] at this
    exact absurd this (by decide)
  have hload : load_jsonl_file st.db content = .ok (st.db, ⟨0, 0, 0⟩) := by
    unfold load_jsonl_file
    rw [loadGo_all_blank content st.db 0 0 hblank]
    rfl
  constructor
  · intro db rest n l; rfl
  · refine ⟨⟨insert_ingestion_run st.db rid p.name sa fa ⟨0, 0, 0⟩
        "success" none,
        fsSet (fsRemove st.fs p) ⟨ARCHIVE_DIR, p.name⟩ content⟩,
      ?_, rfl, ?_, ?_, ?_⟩
    · simp only [ingest_one_file, hfile, runBatch, hload, archive_file]
    · simp [insert_ingestion_run]
    · exact fsLookup_set_self _ _ _
    · rw [fsLookup_set_other _ _ _ _ hne,
        fsLookup_remove_other _ _ _ (fun hh => hne hh.symm),
        fsLookup_remove_self]

/-- Fixture for the C9 witness: a staged batch of two blank lines. -/
def stBlank : SysState :=
  ⟨⟨[], []⟩, [(⟨INCOMING_DIR, "e.jsonl"⟩, [Line.blank, Line.blank])]⟩

/-- Witness for C9 at a concrete batch of two blank lines. -/
theorem blank_lines_empty_batch_witness :
    ∃ st2, ingest_one_file stBlank ⟨INCOMING_DIR, "e.jsonl"⟩ "r1" "t0" "t1" =
        (st2, .ok ⟨0, 0, 0⟩) ∧
      st2.db.raw_events = stBlank.db.raw_events ∧
      st2.db.ingestion_runs = stBlank.db.ingestion_runs ++
        [⟨"r1", "e.jsonl", "t0", "t1", 0, 0, 0, "success", none⟩] ∧
      fsLookup st2.fs ⟨ARCHIVE_DIR, "e.jsonl"⟩ =
        some [Line.blank, Line.blank] ∧
      fsLookup st2.fs ⟨INCOMING_DIR, "e.jsonl"⟩ = none :=
  (blank_lines_skipped_and_empty_batch_succeeds stBlank
    ⟨INCOMING_DIR, "e.jsonl"⟩ [Line.blank, Line.blank] "r1" "t0" "t1" rfl rfl
    (by
      intro ln hln
      cases hln with
      | head => rfl
      | tail _ h2 =>
        cases h2 with
        | head => rfl
        | tail _ h3 => cases h3)).2

/-- C10: the data-row inserts and the success run record are committed by
the single commit on line 143, after both writes: when the load succeeds
the attempt's final store is exactly the loaded store plus the one
success run row appended (both visible together, atomically), and when
the load fails before the commit the state is returned unchanged
(neither rows nor run record become visible). -/
theorem data_and_run_record_commit_together
    (st : SysState) (p : FPath) (content : List Line) (rid sa fa : String)
    (hfile : fsLookup st.fs p = some content) :
    (∀ (db1 : Db) (stats : FileStats),
      load_jsonl_file st.db content = .ok (db1, stats) →
      ∃ fs2, ingest_one_file st p rid sa fa =
        (⟨insert_ingestion_run db1 rid p.name sa fa stats "success" none,
          fs2⟩, .ok stats)) ∧
    (∀ e, load_jsonl_file st.db content = .error e →
      ingest_one_file st p rid sa fa =
        (st, .error ("Failed to ingest " ++ p.name ++ ": " ++ e))) := by
  constructor
  · intro db1 stats hload
    refine ⟨fsSet (fsRemove st.fs p) ⟨ARCHIVE_DIR, p.name⟩ content, ?_⟩
    simp only [ingest_one_file, hfile, runBatch, hload, archive_file]
  · intro e hload
    simp only [ingest_one_file, hfile, runBatch, hload]

/-- Witness for C10 at the concrete A,B,A batch. -/
theorem data_and_run_record_commit_together_witness :
    fsLookup stA.fs ⟨INCOMING_DIR, "events.jsonl"⟩ = some contentABA ∧
    load_jsonl_file stA.db contentABA = .ok (dbABA, stats321) ∧
    ∃ fs2, ingest_one_file stA ⟨INCOMING_DIR, "events.jsonl"⟩ "r1" "t0" "t1" =
      (⟨insert_ingestion_run dbABA "r1" "events.jsonl" "t0" "t1" stats321
          "success" none, fs2⟩, .ok stats321) :=
  ⟨rfl, rfl,
    (data_and_run_record_commit_together stA ⟨INCOMING_DIR, "events.jsonl"⟩
      contentABA "r1" "t0" "t1" rfl).1 dbABA stats321 rfl⟩

/-- C4 (amended): a batch attempt that hits a structurally invalid
record aborts with an error (a malformed line anywhere makes the load
fail), zero Events from the batch are committed and the batch stays
staged; but contrary to the original claim NO run record at all is
written — the exception is re-raised (lines 150-152, with failure
logging a stated TODO), and the returned state is exactly the initial
state, ingestion_runs included. -/
theorem invalid_record_aborts_without_any_run_record
    (st : SysState) (p : FPath) (content : List Line) (rid sa fa : String)
    (hfile : fsLookup st.fs p = some content) :
    (∀ raw, Line.malformed raw ∈ content →
      ∃ e, load_jsonl_file st.db content = .error e) ∧
    (∀ e, load_jsonl_file st.db content = .error e →
      ingest_one_file st p rid sa fa =
        (st, .error ("Failed to ingest " ++ p.name ++ ": " ++ e))) := by
  constructor
  · intro raw hmem
    obtain ⟨e, he⟩ := loadGo_malformed content st.db 0 0 raw hmem
    exact ⟨e, by simp only [load_jsonl_file, he]⟩
  · intro e hload
    simp only [ingest_one_file, hfile, runBatch, hload]

/-- Fixture: a batch with one valid record followed by a malformed line. -/
def badBatch : List Line := [.record objA1, .malformed "not json"]

/-- Fixture: an empty store with badBatch staged as bad.jsonl. -/
def stBad4 : SysState := ⟨⟨[], []⟩, [(⟨INCOMING_DIR, "bad.jsonl"⟩, badBatch)]⟩

/-- C4 counterexample: ingesting a batch with an invalid record among
valid ones leaves ingestion_runs empty — no run record with status
failed (nor any other) is written, refuting the claim as stated; the
attempt errors and the whole state (store and staging) is untouched. -/
theorem invalid_record_no_failed_run_row_counterexample :
    (ingest_one_file stBad4 ⟨INCOMING_DIR, "bad.jsonl"⟩
        "r1" "t0" "t1").1.db.ingestion_runs = [] ∧
    ingest_one_file stBad4 ⟨INCOMING_DIR, "bad.jsonl"⟩ "r1" "t0" "t1" =
      (stBad4,
       .error "Failed to ingest bad.jsonl: json.loads failed: not json") :=
  ⟨rfl, rfl⟩

/-- Witness for C4 (amended) at the concrete batch with a malformed
line. -/
theorem invalid_record_aborts_witness :
    fsLookup stBad4.fs ⟨INCOMING_DIR, "bad.jsonl"⟩ = some badBatch ∧
    (∃ e, load_jsonl_file stBad4.db badBatch = .error e) ∧
    ingest_one_file stBad4 ⟨INCOMING_DIR, "bad.jsonl"⟩ "r1" "t0" "t1" =
      (stBad4, .error ("Failed to ingest " ++ "bad.jsonl" ++ ": " ++
        "json.loads failed: not json")) :=
  ⟨rfl,
   (invalid_record_aborts_without_any_run_record stBad4
      ⟨INCOMING_DIR, "bad.jsonl"⟩ badBatch "r1" "t0" "t1" rfl).1
     "not json" (List.mem_cons_of_mem _ (List.mem_cons_self _ _)),
   (invalid_record_aborts_without_any_run_record stBad4
      ⟨INCOMING_DIR, "bad.jsonl"⟩ badBatch "r1" "t0" "t1" rfl).2
     "json.loads failed: not json" rfl⟩

/-- C5 (amended): batch failures are NOT isolated: when ingest_one_file
fails on one discovered batch, its RuntimeError propagates out of the
loop in main, so the loop stops there and none of the subsequently
discovered batches is attempted — the result is the same for every
possible list of remaining files. -/
theorem batch_failure_stops_the_loop
    (st st2 : SysState) (p : FPath) (rest : List FPath)
    (mkMeta : FPath → String × String × String) (e : String)
    (hfail : ingest_one_file st p (mkMeta p).1 (mkMeta p).2.1
        (mkMeta p).2.2 = (st2, .error e)) :
    processFiles mkMeta st (p :: rest) = (st2, .error e) := by
  simp only [processFiles, hfail]

/-- Fixture: the valid one-record batch for b.jsonl. -/
def contentB : List Line := [.record objB]

/-- Fixture: two staged batches, a.jsonl invalid and b.jsonl valid. -/
def stBad5 : SysState :=
  ⟨⟨[], []⟩,
   [(⟨INCOMING_DIR, "a.jsonl"⟩, [.malformed "oops"]),
    (⟨INCOMING_DIR, "b.jsonl"⟩, contentB)]⟩

/-- C5 counterexample: with a.jsonl (invalid) discovered before b.jsonl
(valid), main stops at a.jsonl: the final state is the initial one — b
is still staged, none of its events is stored, no run row exists and
nothing was archived — so the valid later batch was never attempted,
refuting the claim; ingesting b directly from that very state succeeds,
showing the batch itself was processable. -/
theorem one_bad_batch_blocks_later_batches_counterexample :
    main stBad5 (fun _ => ("r1", "t0", "t1")) =
      (stBad5, .error "Failed to ingest a.jsonl: json.loads failed: oops") ∧
    fsLookup (main stBad5 (fun _ => ("r1", "t0", "t1"))).1.fs
      ⟨INCOMING_DIR, "b.jsonl"⟩ = some contentB ∧
    (ingest_one_file stBad5 ⟨INCOMING_DIR, "b.jsonl"⟩ "r2" "t2" "t3").2 =
      .ok ⟨1, 1, 0⟩ :=
  ⟨rfl, rfl, rfl⟩

/-- Witness for C5 (amended): the concrete failing a.jsonl stops the
loop whatever follows it. -/
theorem batch_failure_stops_the_loop_witness :
    ingest_one_file stBad5 ⟨INCOMING_DIR, "a.jsonl"⟩ "r1" "t0" "t1" =
      (stBad5, .error "Failed to ingest a.jsonl: json.loads failed: oops") ∧
    processFiles (fun _ => ("r1", "t0", "t1")) stBad5
        [⟨INCOMING_DIR, "a.jsonl"⟩, ⟨INCOMING_DIR, "b.jsonl"⟩] =
      (stBad5, .error "Failed to ingest a.jsonl: json.loads failed: oops") :=
  ⟨rfl,
   batch_failure_stops_the_loop stBad5 stBad5 ⟨INCOMING_DIR, "a.jsonl"⟩
     [⟨INCOMING_DIR, "b.jsonl"⟩] (fun _ => ("r1", "t0", "t1"))
     "Failed to ingest a.jsonl: json.loads failed: oops" rfl⟩

/-- C7 (amended): archiving into an occupied destination does NOT fail
loudly: archive_file succeeds and the incoming file's content silently
replaces the previously archived file of the same name (move with
rename semantics), so the previously archived content is lost. -/
theorem archive_silently_overwrites
    (fs : Fs) (p : FPath) (c cOld : List Line)
    (hsrc : fsLookup fs p = some c)
    (hdst : fsLookup fs ⟨ARCHIVE_DIR, p.name⟩ = some cOld) :
    ∃ fs2, archive_file fs p = .ok (fs2, ⟨ARCHIVE_DIR, p.name⟩) ∧
      fsLookup fs2 ⟨ARCHIVE_DIR, p.name⟩ = some c := by
  refine ⟨fsSet (fsRemove fs p) ⟨ARCHIVE_DIR, p.name⟩ c, ?_, ?_⟩
  · simp only [archive_file, hsrc]
  · exact fsLookup_set_self _ _ _

/-- Fixture: staging holds f.jsonl while the archive already holds a
different file of the same name. -/
def fsOverwrite : Fs :=
  [(⟨INCOMING_DIR, "f.jsonl"⟩, [Line.blank]),
   (⟨ARCHIVE_DIR, "f.jsonl"⟩, [Line.malformed "previously archived"])]

/-- C7 counterexample: archiving f.jsonl while the destination already
holds a same-named file with different content succeeds without any
failure, and afterwards the destination holds the incoming content —
the old archived file was silently overwritten, refuting the claim. -/
theorem archive_overwrite_counterexample :
    archive_file fsOverwrite ⟨INCOMING_DIR, "f.jsonl"⟩ =
      .ok ([(⟨ARCHIVE_DIR, "f.jsonl"⟩, [Line.blank])],
           ⟨ARCHIVE_DIR, "f.jsonl"⟩) := rfl

/-- Witness for C7 (amended) at the concrete occupied destination. -/
theorem archive_silently_overwrites_witness :
    fsLookup fsOverwrite ⟨INCOMING_DIR, "f.jsonl"⟩ = some [Line.blank] ∧
    fsLookup fsOverwrite ⟨ARCHIVE_DIR, "f.jsonl"⟩ =
      some [Line.malformed "previously archived"] ∧
    ∃ fs2, archive_file fsOverwrite ⟨INCOMING_DIR, "f.jsonl"⟩ =
        .ok (fs2, ⟨ARCHIVE_DIR, "f.jsonl"⟩) ∧
      fsLookup fs2 ⟨ARCHIVE_DIR, "f.jsonl"⟩ = some [Line.blank] :=
  ⟨rfl, rfl,
   archive_silently_overwrites fsOverwrite ⟨INCOMING_DIR, "f.jsonl"⟩
     [Line.blank] [Line.malformed "previously archived"] rfl rfl⟩

theorem bindParams_device_eq (obj : List (String × JVal)) (ps : Params)
    (h : bindParams obj = .ok ps) :
    ps.device = (lookupKey obj "device").getD .jnull := by
  unfold bindParams at h
  repeat' split at h
  any_goals exact Except.noConfusion h
  all_goals (injection h with h2; rw [← h2])

theorem mkRowEntry_device_eq (ps : Params) (k : String) (r : Row)
    (h : mkRowEntry ps = .ok (k, r)) :
    castStringy ps.device = .ok r.device := by
  unfold mkRowEntry at h
  repeat' split at h
  any_goals exact Except.noConfusion h
  injection h with h2
  injection h2 with ha hb
  rw [← hb]
  assumption

/-- C6 (amended): of the fields the claim lists as required, a record
missing event_id, event_time, ingestion_time, event_name, user_id or
session_id makes the driver's parameter binding fail — aborting the
whole batch attempt with a missing-parameter error rather than a
per-record SchemaViolation — but a missing device does NOT fail the
record: the normalization on line 80 substitutes None, and whenever the
rest of the record binds and casts, the row is silently inserted with a
NULL device, refuting the claim for device. -/
theorem missing_required_field_behavior :
    (∀ obj : List (String × JVal),
      (lookupKey obj "event_id" = none ∨ lookupKey obj "event_time" = none ∨
       lookupKey obj "ingestion_time" = none ∨
       lookupKey obj "event_name" = none ∨ lookupKey obj "user_id" = none ∨
       lookupKey obj "session_id" = none) →
      ∃ e, bindParams obj = .error e) ∧
    (∀ (obj : List (String × JVal)) (ps : Params) (k : String) (r : Row),
      lookupKey obj "device" = none → bindParams obj = .ok ps →
      mkRowEntry ps = .ok (k, r) → r.device = none) := by
  constructor
  · intro obj h
    unfold bindParams
    repeat' split
    any_goals exact ⟨_, rfl⟩
    all_goals (rcases h with h | h | h | h | h | h <;> simp_all)
  · intro obj ps k r hdev hbind hrow
    have h1 := bindParams_device_eq obj ps hbind
    rw [hdev] at h1
    have h2 := mkRowEntry_device_eq ps k r hrow
    rw [h1] at h2
    simp only [Option.getD_none, castStringy, Except.ok.injEq] at h2
    exact h2.symm

/-- Fixture: a record with every required field except device (and no
optional fields). -/
def objNoDevice : List (String × JVal) :=
  [("event_id", .jstr "E1"),
   ("event_time", .jstr "2026-01-01T00:00:00+00:00"),
   ("ingestion_time", .jstr "2026-01-01T00:00:01+00:00"),
   ("event_name", .jstr "open"),
   ("user_id", .jint 7),
   ("session_id", .jstr "S7")]

/-- Fixture: the parameters objNoDevice binds to (device is None). -/
def psNoDevice : Params :=
  { event_id := .jstr "E1",
    event_time := .jstr "2026-01-01T00:00:00+00:00",
    ingestion_time := .jstr "2026-01-01T00:00:01+00:00",
    event_name := .jstr "open", user_id := .jint 7,
    session_id := .jstr "S7", product_id := .jnull, price := .jnull,
    device := .jnull, payload := .jobj [] }

/-- Fixture: the row stored for objNoDevice (device is NULL). -/
def rowNoDevice : Row :=
  { event_time := some "2026-01-01T00:00:00+00:00",
    ingestion_time := some "2026-01-01T00:00:01+00:00",
    event_name := some "open", user_id := some 7,
    session_id := some "S7", product_id := none, price := none,
    device := none, payload := .jobj [] }

/-- Fixture: a record missing event_id. -/
def objNoEventId : List (String × JVal) :=
  [("event_time", .jstr "t"), ("user_id", .jint 7)]

/-- C6 counterexample: a record whose device field is missing is not
failed by any validation: the whole one-record batch loads successfully
with rows_loaded = 1 and the stored row carries a NULL device, refuting
the claimed SchemaViolation for a missing device. -/
theorem missing_device_silently_inserted_counterexample :
    load_jsonl_file ⟨[], []⟩ [Line.record objNoDevice] =
      .ok (⟨[("E1", rowNoDevice)], []⟩, ⟨1, 1, 0⟩) ∧
    rowNoDevice.device = none := ⟨rfl, rfl⟩

/-- Witness for C6 (amended): a record missing event_id fails the
binding; the record missing only device binds, casts and is stored with
a NULL device. -/
theorem missing_required_field_behavior_witness :
    (∃ e, bindParams objNoEventId = .error e) ∧
    (lookupKey objNoDevice "device" = none ∧
     bindParams objNoDevice = .ok psNoDevice ∧
     mkRowEntry psNoDevice = .ok ("E1", rowNoDevice) ∧
     rowNoDevice.device = none) :=
  ⟨missing_required_field_behavior.1 objNoEventId (Or.inl rfl),
   rfl, rfl, rfl,
   missing_required_field_behavior.2 objNoDevice psNoDevice "E1" rowNoDevice
     rfl rfl rfl⟩

theorem runBatch_rerun (db dbC : Db) (content : List Line)
    (rid sa fa name : String) (stats : FileStats)
    (hrun : runBatch db content rid sa fa name = .ok (dbC, stats)) :
    load_jsonl_file dbC content =
      .ok (dbC, ⟨stats.rows_in_file, 0, (stats.rows_in_file : Int)⟩) := by
  unfold runBatch at hrun
  cases hl : load_jsonl_file db content with
  | error e => simp [hl] at hrun
  | ok t =>
    obtain ⟨db1, stats1⟩ := t
    simp only [hl, Except.ok.injEq, Prod.mk.injEq] at hrun
    obtain ⟨hdbC, hstats⟩ := hrun
    subst hdbC
    subst hstats
    unfold load_jsonl_file at hl ⊢
    cases hg : loadGo db content 0 0 with
    | error e => simp [hg] at hl
    | ok t2 =>
      obtain ⟨dbx, n, l⟩ := t2
      simp only [hg, Except.ok.injEq, Prod.mk.injEq] at hl
      obtain ⟨hdbx, hst1⟩ := hl
      subst hdbx
      subst hst1
      have hready := loadGo_ready content db dbx 0 0 n l hg
      have hcnt := loadGo_count content db dbx 0 0 n l hg
      have hrr := loadGo_rerun content
        (insert_ingestion_run dbx rid name sa fa
          ⟨n, l, (n : Int) - (l : Int)⟩ "success" none) 0 0 hready
      rw [hrr]
      simp
      omega

/-- C1: the archive move is performed only after the commit that makes
both the batch's data rows and its run record durable: an attempt that
ends in an error never changes the filesystem, a successful attempt
archives the file of exactly the committed state, and after a crash
between the commit (line 143) and the archive move (line 145) the batch
remains staged; a subsequent run of ingest_one_file on it completes
with rows_loaded = 0 and the same rows_in_file, and adds no data row to
the store. -/
theorem commit_before_archive_and_crash_recovery
    (st : SysState) (p : FPath) (content : List Line)
    (rid sa fa rid2 sa2 fa2 : String) (dbC : Db) (stats : FileStats)
    (hfile : fsLookup st.fs p = some content)
    (hrun : runBatch st.db content rid sa fa p.name = .ok (dbC, stats)) :
    (∀ (st0 st1 : SysState) (p0 : FPath) (r0 s0 f0 e : String),
      ingest_one_file st0 p0 r0 s0 f0 = (st1, .error e) → st1.fs = st0.fs) ∧
    (∃ fs2, archive_file st.fs p = .ok (fs2, ⟨ARCHIVE_DIR, p.name⟩) ∧
      ingest_one_file st p rid sa fa = (⟨dbC, fs2⟩, .ok stats)) ∧
    fsLookup (SysState.mk dbC st.fs).fs p = some content ∧
    (∃ st2 stats2,
      ingest_one_file ⟨dbC, st.fs⟩ p rid2 sa2 fa2 = (st2, .ok stats2) ∧
      stats2.rows_loaded = 0 ∧ stats2.rows_in_file = stats.rows_in_file ∧
      st2.db.raw_events = dbC.raw_events) := by
  refine ⟨?_, ?_, hfile, ?_⟩
  · intro st0 st1 p0 r0 s0 f0 e h
    unfold ingest_one_file at h
    split at h
    · injection h with h1 h2
      rw [← h1]
    · split at h
      · injection h with h1 h2
        rw [← h1]
      · split at h
        · injection h with h1 h2
          rw [← h1]
        · injection h with h1 h2
          exact Except.noConfusion h2
  · refine ⟨fsSet (fsRemove st.fs p) ⟨ARCHIVE_DIR, p.name⟩ content, ?_, ?_⟩
    · simp only [archive_file, hfile]
    · simp only [ingest_one_file, hfile, hrun, archive_file]
  · have hload2 := runBatch_rerun st.db dbC content rid sa fa p.name stats hrun
    refine ⟨⟨insert_ingestion_run dbC rid2 p.name sa2 fa2
        ⟨stats.rows_in_file, 0, (stats.rows_in_file : Int)⟩ "success" none,
        fsSet (fsRemove st.fs p) ⟨ARCHIVE_DIR, p.name⟩ content⟩,
      ⟨stats.rows_in_file, 0, (stats.rows_in_file : Int)⟩, ?_, rfl, rfl, rfl⟩
    simp only [ingest_one_file, hfile, runBatch, hload2, archive_file]

/-- Fixture: the staged path for the crash-recovery witness. -/
def pW : FPath := ⟨INCOMING_DIR, "w.jsonl"⟩

/-- Fixture: the one-record batch for the crash-recovery witness. -/
def contentW : List Line := [.record objA1]

/-- Fixture: the initial world for the crash-recovery witness. -/
def stW : SysState := ⟨⟨[], []⟩, [(pW, contentW)]⟩

/-- Fixture: the committed store right before the archive move of the
crash-recovery witness. -/
def dbCw : Db :=
  ⟨[("A", rowA1)], [⟨"r1", "w.jsonl", "t0", "t1", 1, 1, 0, "success", none⟩]⟩

/-- Witness for C1: a concrete crash after the commit, before the
archive, and the subsequent recovery run. -/
theorem commit_before_archive_witness :
    fsLookup stW.fs pW = some contentW ∧
    runBatch stW.db contentW "r1" "t0" "t1" pW.name = .ok (dbCw, ⟨1, 1, 0⟩) ∧
    ∃ st2 stats2,
      ingest_one_file ⟨dbCw, stW.fs⟩ pW "r2" "t2" "t3" = (st2, .ok stats2) ∧
      stats2.rows_loaded = 0 ∧ stats2.rows_in_file = 1 ∧
      st2.db.raw_events = dbCw.raw_events :=
  ⟨rfl, rfl,
   (commit_before_archive_and_crash_recovery stW pW contentW "r1" "t0" "t1"
      "r2" "t2" "t3" dbCw ⟨1, 1, 0⟩ rfl rfl).2.2.2⟩

end IngestRaw
